import Mathlib

/-!
Shallow embedding of the AMC Analytics Dashboard client logic (js/app.js:
the file's later, operative definitions) together with theorems checking
the natural-language specification against it.

Modelling conventions:
* JS date strings ("YYYY-MM-DD" or "YYYY-MM") are embedded as `DStr`
  structures; lexicographic comparison of the structures coincides with
  `localeCompare` on well-formed zero-padded ISO strings (a month-only
  string sorts before any full date of the same month, encoded by
  `day = none`).
* JS `Date` values are abstracted to calendar dates; `new Date("YYYY-MM")`
  and `new Date(y, m-1, 1)` both denote the first of the month, so a
  missing day is valued `1` when comparing date *values* (`dateLe`),
  while it sorts first when comparing date *strings* (`dstrLe`).
  Time-of-day and timezone are abstracted away.
* JS numbers that may be `undefined`/NaN are embedded as `Option Int`:
  `none` stands for a missing field, and NaN produced by arithmetic on a
  missing field; `jsAdd`/`jsSub` propagate `none` like NaN.
* Range tags are the inductive `RangeTag` (the FilterState domain
  {Q1,Q2,Q3,Q4,Annual}).
-/

/-- An ISO-style date string: year, month, optional day
("YYYY-MM-DD" has `day = some d`, "YYYY-MM" has `day = none`). -/
structure DStr where
  y : Nat
  m : Nat
  d : Option Nat
deriving DecidableEq, Repr

/-- String-order comparison of the day component: a month-only string is a
proper prefix of any full date string of that month, so it sorts first. -/
def dayLe : Option Nat → Option Nat → Bool
  | none, _ => true
  | some _, none => false
  | some a, some b => a ≤ b

/-- `a.localeCompare(b) <= 0` on well-formed zero-padded ISO date strings. -/
def dstrLe (a b : DStr) : Bool :=
  if a.y < b.y then true
  else if b.y < a.y then false
  else if a.m < b.m then true
  else if b.m < a.m then false
  else dayLe a.d b.d

/-- The day a JS `Date` assigns when the day component is missing
(`new Date("YYYY-MM")` is the first of the month). -/
def dayVal : Option Nat → Nat
  | none => 1
  | some d => d

/-- Comparison of date *values* (`itemDate <= today` in the code). -/
def dateLe (a b : DStr) : Bool :=
  if a.y < b.y then true
  else if b.y < a.y then false
  else if a.m < b.m then true
  else if b.m < a.m then false
  else dayVal a.d ≤ dayVal b.d

/-- Strict comparison of date values ("strictly after" = `dateLt today d`). -/
def dateLt (a b : DStr) : Bool :=
  if a.y < b.y then true
  else if b.y < a.y then false
  else if a.m < b.m then true
  else if b.m < a.m then false
  else dayVal a.d < dayVal b.d

/-- The range selector domain of `FilterState.ranges`. -/
inductive RangeTag
  | Q1 | Q2 | Q3 | Q4 | Annual
deriving DecidableEq, Repr, Fintype

/-- `parseInt(range.replace('Q',''))` kept only when `1 <= q <= 4`
("Annual" parses to NaN and is dropped). -/
def quarterNum : RangeTag → Option Nat
  | .Q1 => some 1
  | .Q2 => some 2
  | .Q3 => some 3
  | .Q4 => some 4
  | .Annual => none

/-- The string form of a range tag. -/
def tagStr : RangeTag → String
  | .Q1 => "Q1"
  | .Q2 => "Q2"
  | .Q3 => "Q3"
  | .Q4 => "Q4"
  | .Annual => "Annual"

/-- Position of a tag in JS default (lexicographic) sort order:
"Annual" < "Q1" < "Q2" < "Q3" < "Q4". -/
def tagIdx : RangeTag → Nat
  | .Annual => 0
  | .Q1 => 1
  | .Q2 => 2
  | .Q3 => 3
  | .Q4 => 4

/-- Lexicographic (JS default `sort()`) order on range tag strings. -/
def tagLe (a b : RangeTag) : Bool := tagIdx a ≤ tagIdx b

/-- One row of a loaded snapshot (`fileData.data[i]`); fields that may be
absent in the JSON are `Option`s. -/
structure SRec where
  week_start : Option DStr
  week_end : Option DStr
  month_start : Option DStr
  month : Option DStr
  created : Option Int
  resolved : Option Int
  label : String
deriving DecidableEq, Repr

/-- `item.week_start || item.month_start || item.month`. -/
def dateStrOf (r : SRec) : Option DStr :=
  match r.week_start with
  | some d => some d
  | none =>
    match r.month_start with
    | some d => some d
    | none => r.month

/-- The `itemDate` computed for the future-date check: `week_start` or
`month_start` parsed directly, else `new Date(y, m-1, 1)` from `month`. -/
def itemDateOf (r : SRec) : Option DStr :=
  match r.week_start with
  | some d => some d
  | none =>
    match r.month_start with
    | some d => some d
    | none =>
      match r.month with
      | some d => some { y := d.y, m := d.m, d := some 1 }
      | none => none

/-- The year/future filter predicate used when `currentFilters.year` is
truthy (app.js lines 1425-1479). -/
def keepYearFuture (y : Nat) (today : DStr) (r : SRec) : Bool :=
  match dateStrOf r with
  | none => false
  | some ds =>
    let yearOk : Bool :=
      match r.week_start with
      | some ws =>
        (match r.week_end with
         | some we => !(ws.y ≠ y && we.y ≠ y)
         | none => ws.y = y)
      | none => ds.y = y
    if yearOk then
      match itemDateOf r with
      | some dt => dateLe dt today
      | none => false
    else false

/-- The future-only filter predicate used when no year is selected
(app.js lines 1482-1499). -/
def keepFuture (today : DStr) (r : SRec) : Bool :=
  match dateStrOf r with
  | none => false
  | some _ =>
    match itemDateOf r with
    | some dt => dateLe dt today
    | none => false

/-- JS truthiness of `currentFilters.year` (`null` and `0` are falsy). -/
def yearTruthy : Option Nat → Bool
  | none => false
  | some y => y ≠ 0

/-- The predicate the first stage filters with: the year/future predicate
when the selected year is truthy, otherwise the future-only predicate. -/
def stage1Pred (yearSel : Option Nat) (today : DStr) (r : SRec) : Bool :=
  match yearSel with
  | some y => if y ≠ 0 then keepYearFuture y today r else keepFuture today r
  | none => keepFuture today r

/-- First filtering stage: year filter (with week-overlap rule) plus the
future-date exclusion; without a truthy year only the future-date
exclusion runs. -/
def stage1 (yearSel : Option Nat) (today : DStr) (records : List SRec) : List SRec :=
  records.filter (stage1Pred yearSel today)

/-- The quarters selected from the range tags (`selectedQuarters` set). -/
def selectedQuarters (ranges : List RangeTag) : List Nat :=
  ranges.filterMap quarterNum

/-- `Math.ceil(month / 3)`. -/
def quarterOfMonth (m : Nat) : Nat := (m + 2) / 3

/-- The quarter filter predicate (app.js lines 1513-1542): month from the
record's date string, falling back to `week_end`'s month when a truthy
selected year differs from the date string's year. -/
def keepQuarter (yearSel : Option Nat) (sq : List Nat) (r : SRec) : Bool :=
  match dateStrOf r with
  | none => false
  | some ds =>
    match yearSel with
    | some y =>
      if y ≠ 0 && ds.y ≠ y then
        match r.week_end with
        | some we => if we.y = y then decide (quarterOfMonth we.m ∈ sq) else false
        | none => false
      else decide (quarterOfMonth ds.m ∈ sq)
    | none => decide (quarterOfMonth ds.m ∈ sq)

/-- Second filtering stage: quarter filter, applied only when ranges are
non-empty, do not include Annual, and select at least one quarter. -/
def stage2 (yearSel : Option Nat) (ranges : List RangeTag) (l : List SRec) : List SRec :=
  if ranges.length > 0 && !(decide (RangeTag.Annual ∈ ranges)) then
    if (selectedQuarters ranges).length > 0 then
      l.filter (keepQuarter yearSel (selectedQuarters ranges))
    else l
  else l

/-- The predicate `stage2` amounts to filtering with (trivially true when
the quarter filter is skipped). -/
def stage2Pred (yearSel : Option Nat) (ranges : List RangeTag) : SRec → Bool :=
  if ranges.length > 0 && !(decide (RangeTag.Annual ∈ ranges)) then
    if (selectedQuarters ranges).length > 0 then
      keepQuarter yearSel (selectedQuarters ranges)
    else fun _ => true
  else fun _ => true

/-- The sort key: `a.week_start || a.month_start || a.month || ''`
(`none` stands for the empty string, which sorts first). -/
def sortKey (r : SRec) : Option DStr := dateStrOf r

/-- `localeCompare`-order on sort keys. -/
def keyLe (a b : Option DStr) : Bool :=
  match a, b with
  | none, _ => true
  | some _, none => false
  | some x, some y => dstrLe x y

/-- The sort comparator as a relation: record `a` may come before `b`. -/
def recLe (a b : SRec) : Prop := keyLe (sortKey a) (sortKey b) = true

instance : DecidableRel recLe := fun _ _ => instDecidableEqBool _ _

/-- Stable sort by date string, modelling `filtered.sort(localeCompare)`
(JS `Array.prototype.sort` is stable; stable insertion sort computes the
same list for this total comparator). -/
def sortRecs (l : List SRec) : List SRec := List.insertionSort recLe l

/-- The whole filter-and-sort pipeline of `filterAndRenderData`
(year/future filter, quarter filter, sort by date string). -/
def filterSort (yearSel : Option Nat) (ranges : List RangeTag) (today : DStr)
    (records : List SRec) : List SRec :=
  sortRecs (stage2 yearSel ranges (stage1 yearSel today records))

/-- JS subtraction on possibly-missing numbers: `undefined - x` is NaN. -/
def jsSub : Option Int → Option Int → Option Int
  | some a, some b => some (a - b)
  | _, _ => none

/-- JS addition on possibly-missing numbers: NaN propagates. -/
def jsAdd : Option Int → Option Int → Option Int
  | some a, some b => some (a + b)
  | _, _ => none

/-- A record augmented with its running `cumulative` value. -/
structure CRec where
  srec : SRec
  cumulative : Option Int
deriving DecidableEq, Repr

/-- The cumulative map: `netChange = item.created - item.resolved` (note:
no `|| 0` guard here), `cumulative += netChange`. -/
def cumulAux (cum : Option Int) : List SRec → List CRec
  | [] => []
  | r :: rs =>
    let cum2 := jsAdd cum (jsSub r.created r.resolved)
    ⟨r, cum2⟩ :: cumulAux cum2 rs

/-- `totalCreated += item.created || 0`. -/
def totalCreated : List SRec → Int
  | [] => 0
  | r :: rs => r.created.getD 0 + totalCreated rs

/-- `totalResolved += item.resolved || 0`. -/
def totalResolved : List SRec → Int
  | [] => 0
  | r :: rs => r.resolved.getD 0 + totalResolved rs

/-- `filterAndRenderData`, returning the rendered series and the two stat
totals; empty/absent `currentData` renders nothing and zero totals. -/
def filterAndRenderData (yearSel : Option Nat) (ranges : List RangeTag)
    (today : DStr) (records : List SRec) : List CRec × Int × Int :=
  if records.length = 0 then ([], 0, 0)
  else
    let f := filterSort yearSel ranges today records
    (cumulAux (some 0) f, totalCreated f, totalResolved f)

/-- A character allowed by the filename sanitizer class `[a-zA-Z0-9_-]`. -/
def isAllowedChar (c : Char) : Bool :=
  ('a' ≤ c && c ≤ 'z') || ('A' ≤ c && c ≤ 'Z') || ('0' ≤ c && c ≤ '9') || c = '_' || c = '-'

/-- `customer.replace(/[^a-zA-Z0-9_-]/g, '_')` acts per character. -/
def replaceChar (c : Char) : Char :=
  if isAllowedChar c then c else '_'

/-- The customer sanitizer inside `getDataFilename`: the three special
tokens map to themselves; any other name has each disallowed character
replaced by an underscore and is then truncated to 50 characters. -/
def sanitizeCustomer (customer : String) : String :=
  if customer = "all" then "all"
  else if customer = "one-albania" then "one-albania"
  else if customer = "rest-of-world" then "rest-of-world"
  else String.mk ((customer.data.map replaceChar).take 50)

/-- Template-literal rendering of the (possibly null) year. -/
def jsNumToString : Option Nat → String
  | none => "null"
  | some n => toString n

/-- `getDataFilename`. -/
def getDataFilename (period : String) (year : Option Nat) (customer : String) : String :=
  period ++ "-" ++ jsNumToString year ++ "-" ++ sanitizeCustomer customer ++ ".json"

/-- The spec's sanitizer, written from its words for comparison with the
code: "strips all characters outside [A-Za-z0-9_-] and truncates the
result to 50 characters", special tokens mapping to themselves. -/
def specSanitize (customer : String) : String :=
  if customer = "all" then "all"
  else if customer = "one-albania" then "one-albania"
  else if customer = "rest-of-world" then "rest-of-world"
  else String.mk ((customer.data.filter isAllowedChar).take 50)

/-- The in-memory filter state. -/
structure Filters where
  period : String
  year : Option Nat
  ranges : List RangeTag
  customer : String
deriving DecidableEq, Repr

/-- The query string, as `getUrlParams` observes it: `present` is
`params.toString() !== ''` (any key at all), the fields are the values of
`params.get(...)` with absent/empty modelled as `none`; `year` is the
`parseInt` result, `ranges` the comma-split list. -/
structure Query where
  present : Bool
  period : Option String
  year : Option Nat
  ranges : Option (List RangeTag)
  customer : Option String
deriving DecidableEq, Repr

/-- A parsed localStorage blob, before validation/merging. -/
structure StoredFilters where
  period : Option String
  year : Option Nat
  ranges : Option (List RangeTag)
  customer : Option String
deriving DecidableEq, Repr

/-- `parsed.year || null`: a stored year of 0 is falsy and becomes null. -/
def jsOrNullNat : Option Nat → Option Nat
  | none => none
  | some y => if y = 0 then none else some y

/-- `loadFiltersFromStorage`: `none` input covers both an absent item and
a JSON parse error (the catch branch); otherwise validate and merge with
defaults. -/
def loadFiltersFromStorage (saved : Option StoredFilters) : Option Filters :=
  match saved with
  | none => none
  | some p =>
    some { period := p.period.getD "monthly"
           year := jsOrNullNat p.year
           ranges := match p.ranges with
                     | some l => if l.length > 0 then l else [.Annual]
                     | none => [.Annual]
           customer := p.customer.getD "all" }

/-- `getUrlParams`: the whole set comes from the query string when any
parameter is present, else from storage, else hard-coded defaults. -/
def getUrlParams (q : Query) (saved : Option StoredFilters) : Filters :=
  if q.present then
    { period := q.period.getD "monthly"
      year := q.year
      ranges := q.ranges.getD [.Annual]
      customer := q.customer.getD "all" }
  else
    match loadFiltersFromStorage saved with
    | some f => f
    | none => { period := "monthly", year := none, ranges := [.Annual], customer := "all" }

/-- `metadata.years && years.length > 0 ? years[years.length-1] : null`. -/
def lastYear (years : List Nat) : Option Nat := years.getLast?

/-- The filter state `init` establishes (app.js lines 1086-1100): URL or
storage or defaults, with the year falling back to the latest metadata
year when falsy, and a second fallback check after UI initialization. -/
def initFilters (q : Query) (saved : Option StoredFilters) (years : List Nat) : Filters :=
  let u := getUrlParams q saved
  let y1 := match u.year with
            | some y => if y ≠ 0 then some y else lastYear years
            | none => lastYear years
  let y2 := if years.length > 0 && !(yearTruthy y1) then lastYear years else y1
  { u with year := y2 }

/-- A range button click (app.js lines 1276-1281): RADIO behaviour, the
clicked tag becomes the whole selection. -/
def rangeButtonClick (st : Filters) (t : RangeTag) : Filters :=
  { st with ranges := [t] }

/-- The body of a snapshot response: `none` when `response.json()` throws
(invalid JSON), otherwise the parsed object with its optional `data`. -/
structure FileData where
  data : Option (List SRec)
deriving DecidableEq, Repr

/-- A fetch response as `loadData` observes it. -/
structure FetchResponse where
  ok : Bool
  body : Option FileData
deriving DecidableEq, Repr

/-- What `loadData` does with a response. -/
inductive LoadOutcome
  | errorShown
  | clearedEmpty
  | rendered (records : List SRec)
deriving DecidableEq, Repr

/-- `loadData` (app.js lines 1310-1375): non-ok status or a JSON parse
failure throws into the catch branch (`showError`); a missing or empty
`data` field clears the display and returns early; otherwise the data is
handed to `filterAndRenderData`. -/
def loadData (resp : FetchResponse) : LoadOutcome :=
  if !resp.ok then .errorShown
  else
    match resp.body with
    | none => .errorShown
    | some fd =>
      match fd.data with
      | none => .clearedEmpty
      | some l => if l.length = 0 then .clearedEmpty else .rendered l

/-- JS string order on range tags, as a relation. -/
def tagLeP (a b : RangeTag) : Prop := tagLe a b = true

instance : DecidableRel tagLeP := fun _ _ => instDecidableEqBool _ _

/-- `ranges.sort()` (JS default sort: lexicographic on the tag strings). -/
def sortTags (l : List RangeTag) : List RangeTag := List.insertionSort tagLeP l

/-- `sortedRanges.join('+')`. -/
def joinPlus : List RangeTag → String
  | [] => ""
  | [t] => tagStr t
  | t :: ts => tagStr t ++ "+" ++ joinPlus ts

/-- The range key of `aggregateCustomerData` (app.js lines 2389-2404). -/
def rangeKeyCore (ranges : List RangeTag) : String :=
  if RangeTag.Annual ∈ ranges then "Annual"
  else
    match ranges with
    | [t] => tagStr t
    | _ =>
      if (sortTags ranges).length = 4 ∧ RangeTag.Q1 ∈ sortTags ranges
          ∧ RangeTag.Q2 ∈ sortTags ranges ∧ RangeTag.Q3 ∈ sortTags ranges
          ∧ RangeTag.Q4 ∈ sortTags ranges then "Annual"
      else joinPlus (sortTags ranges)

/-- The customer-distribution filename `aggregateCustomerData` requests;
`none` when it returns early (falsy year or no ranges). -/
def aggregateFilename (year : Option Nat) (ranges : List RangeTag) : Option String :=
  if yearTruthy year && !(ranges.isEmpty) then
    some ("data/customer-distribution-" ++ jsNumToString year ++ "-"
          ++ rangeKeyCore ranges ++ ".json")
  else none

/-- Spec-side characterization for the quarter filter: the claim's
effective year/month of a record relative to a selected year — the date
string's own year and month, falling back to the week end's when the date
string's year is not the selected year. -/
def effectiveYM (y : Nat) (r : SRec) : Option (Nat × Nat) :=
  match dateStrOf r with
  | none => none
  | some ds =>
    if ds.y = y then some (ds.y, ds.m)
    else
      match r.week_end with
      | some we => some (we.y, we.m)
      | none => none

/-- Spec-side month ranges of the quarter tags (Q1 covers months 1-3, Q2
4-6, Q3 7-9, Q4 10-12). -/
def specQuarterMonths : RangeTag → Option (Nat × Nat)
  | .Q1 => some (1, 3)
  | .Q2 => some (4, 6)
  | .Q3 => some (7, 9)
  | .Q4 => some (10, 12)
  | .Annual => none

/-! ### Order lemmas for the date-string comparator -/

/-- Rank of the optional day component in string order (`none` first). -/
def dayRank : Option Nat → Nat
  | none => 0
  | some d => d + 1

theorem dayLe_iff (a b : Option Nat) : dayLe a b = true ↔ dayRank a ≤ dayRank b := by
  cases a <;> cases b <;> simp [dayLe, dayRank]

theorem dstrLe_iff (a b : DStr) :
    dstrLe a b = true ↔
      (a.y < b.y ∨ (a.y = b.y ∧ (a.m < b.m ∨ (a.m = b.m ∧ dayRank a.d ≤ dayRank b.d)))) := by
  unfold dstrLe
  have hd := dayLe_iff a.d b.d
  by_cases h1 : a.y < b.y
  · simp [h1]
  · by_cases h2 : b.y < a.y
    · simp [h1, h2]; omega
    · by_cases h3 : a.m < b.m
      · simp [h1, h2, h3]; omega
      · by_cases h4 : b.m < a.m
        · simp [h1, h2, h3, h4]; omega
        · simp [h1, h2, h3, h4, hd]; omega

theorem dstrLe_total (a b : DStr) : dstrLe a b = true ∨ dstrLe b a = true := by
  rw [dstrLe_iff, dstrLe_iff]; omega

theorem dstrLe_trans {a b c : DStr} (h1 : dstrLe a b = true) (h2 : dstrLe b c = true) :
    dstrLe a c = true := by
  rw [dstrLe_iff] at h1 h2 ⊢; omega

theorem keyLe_total (a b : Option DStr) : keyLe a b = true ∨ keyLe b a = true := by
  cases a with
  | none => left; rfl
  | some x =>
    cases b with
    | none => right; rfl
    | some y => exact dstrLe_total x y

theorem keyLe_trans {a b c : Option DStr} (h1 : keyLe a b = true) (h2 : keyLe b c = true) :
    keyLe a c = true := by
  cases a <;> cases b <;> cases c <;> simp [keyLe] at * 
  exact dstrLe_trans h1 h2

instance : IsTotal SRec recLe := ⟨fun a b => keyLe_total (sortKey a) (sortKey b)⟩

instance : IsTrans SRec recLe := ⟨fun _ _ _ hab hbc => keyLe_trans hab hbc⟩

instance : IsTotal RangeTag tagLeP := ⟨by decide⟩

instance : IsTrans RangeTag tagLeP := ⟨by decide⟩

instance : IsAntisymm RangeTag tagLeP := ⟨by decide⟩

theorem dateLe_iff (a b : DStr) :
    dateLe a b = true ↔
      (a.y < b.y ∨ (a.y = b.y ∧ (a.m < b.m ∨ (a.m = b.m ∧ dayVal a.d ≤ dayVal b.d)))) := by
  unfold dateLe
  by_cases h1 : a.y < b.y
  · simp [h1]
  · by_cases h2 : b.y < a.y
    · simp [h1, h2]; omega
    · by_cases h3 : a.m < b.m
      · simp [h1, h2, h3]; omega
      · by_cases h4 : b.m < a.m
        · simp [h1, h2, h3, h4]; omega
        · simp [h1, h2, h3, h4]; omega

theorem dateLt_iff (a b : DStr) :
    dateLt a b = true ↔
      (a.y < b.y ∨ (a.y = b.y ∧ (a.m < b.m ∨ (a.m = b.m ∧ dayVal a.d < dayVal b.d)))) := by
  unfold dateLt
  by_cases h1 : a.y < b.y
  · simp [h1]
  · by_cases h2 : b.y < a.y
    · simp [h1, h2]; omega
    · by_cases h3 : a.m < b.m
      · simp [h1, h2, h3]; omega
      · by_cases h4 : b.m < a.m
        · simp [h1, h2, h3, h4]; omega
        · simp [h1, h2, h3, h4]; omega

theorem dateLe_eq_false_of_dateLt {a b : DStr} (h : dateLt a b = true) :
    dateLe b a = false := by
  cases h2 : dateLe b a with
  | false => rfl
  | true =>
    exfalso
    rw [dateLt_iff] at h
    rw [dateLe_iff] at h2
    omega

/-! ### Lemmas about the cumulative computation -/

/-- The running cumulative value after the first `n` records. -/
def cumAt (c : Option Int) : List SRec → Nat → Option Int
  | _, 0 => c
  | [], _ + 1 => c
  | r :: rs, n + 1 => cumAt (jsAdd c (jsSub r.created r.resolved)) rs n

theorem cumulAux_length (c : Option Int) (l : List SRec) :
    (cumulAux c l).length = l.length := by
  induction l generalizing c with
  | nil => rfl
  | cons r rs ih => simp [cumulAux, ih]

theorem cumulAux_get? (c : Option Int) (l : List SRec) (i : Nat) :
    (cumulAux c l).get? i = (l.get? i).map (fun r => CRec.mk r (cumAt c l (i + 1))) := by
  induction l generalizing c i with
  | nil => simp [cumulAux]
  | cons r rs ih =>
    cases i with
    | zero => simp [cumulAux, cumAt]
    | succ j => simpa [cumulAux, cumAt] using ih (jsAdd c (jsSub r.created r.resolved)) j

theorem cumAt_succ {l : List SRec} {i : Nat} {r : SRec} (c : Option Int)
    (h : l.get? i = some r) :
    cumAt c l (i + 1) = jsAdd (cumAt c l i) (jsSub r.created r.resolved) := by
  induction l generalizing c i with
  | nil => simp at h
  | cons x xs ih =>
    cases i with
    | zero =>
      have hx : x = r := Option.some.inj h
      subst hx
      simp [cumAt]
    | succ j =>
      simpa [cumAt] using ih (jsAdd c (jsSub x.created x.resolved)) h

theorem cumAt_isSome (l : List SRec) (c : Option Int) (n : Nat)
    (H : ∀ r ∈ l, r.created.isSome ∧ r.resolved.isSome) (hc : c.isSome) :
    (cumAt c l n).isSome := by
  induction l generalizing c n with
  | nil => cases n <;> simpa [cumAt]
  | cons r rs ih =>
    cases n with
    | zero => simpa [cumAt]
    | succ m =>
      have hr := H r (List.mem_cons_self r rs)
      have hnet : (jsSub r.created r.resolved).isSome := by
        rcases Option.isSome_iff_exists.mp hr.1 with ⟨a, ha⟩
        rcases Option.isSome_iff_exists.mp hr.2 with ⟨b, hb⟩
        simp [jsSub, ha, hb]
      have hc2 : (jsAdd c (jsSub r.created r.resolved)).isSome := by
        rcases Option.isSome_iff_exists.mp hc with ⟨a, ha⟩
        rcases Option.isSome_iff_exists.mp hnet with ⟨b, hb⟩
        simp [jsAdd, ha, hb]
      exact ih (jsAdd c (jsSub r.created r.resolved)) m
        (fun x hx => H x (List.mem_cons_of_mem r hx)) hc2

theorem jsSub_jsAdd_cancel {a b : Option Int} (ha : a.isSome) (hb : b.isSome) :
    jsSub (jsAdd a b) a = b := by
  rcases Option.isSome_iff_exists.mp ha with ⟨x, hx⟩
  rcases Option.isSome_iff_exists.mp hb with ⟨y, hy⟩
  simp [hx, hy, jsAdd, jsSub]

theorem jsAdd_zero_left (x : Option Int) : jsAdd (some 0) x = x := by
  cases x <;> simp [jsAdd]

/-! ### Lemmas about the filter/sort pipeline -/

theorem mem_sortRecs {x : SRec} {l : List SRec} : x ∈ sortRecs l ↔ x ∈ l := by
  unfold sortRecs
  exact List.mem_insertionSort recLe

theorem stage2_eq_filter (yearSel : Option Nat) (ranges : List RangeTag) (l : List SRec) :
    stage2 yearSel ranges l = l.filter (stage2Pred yearSel ranges) := by
  unfold stage2 stage2Pred
  split
  · split
    · rfl
    · simp
  · simp

theorem mem_filterSort {x : SRec} {yearSel : Option Nat} {ranges : List RangeTag}
    {today : DStr} {records : List SRec} (h : x ∈ filterSort yearSel ranges today records) :
    x ∈ records ∧ stage1Pred yearSel today x = true ∧ stage2Pred yearSel ranges x = true := by
  unfold filterSort at h
  rw [mem_sortRecs, stage2_eq_filter] at h
  rcases List.mem_filter.mp h with ⟨h1, h2⟩
  unfold stage1 at h1
  rcases List.mem_filter.mp h1 with ⟨h3, h4⟩
  exact ⟨h3, h4, h2⟩

theorem sortRecs_sorted (l : List SRec) : (sortRecs l).Sorted recLe :=
  List.sorted_insertionSort recLe l

theorem sortRecs_eq_of_sorted {l : List SRec} (h : l.Sorted recLe) : sortRecs l = l :=
  h.insertionSort_eq

theorem filterAndRenderData_eq (yearSel : Option Nat) (ranges : List RangeTag)
    (today : DStr) (records : List SRec) :
    filterAndRenderData yearSel ranges today records
      = (cumulAux (some 0) (filterSort yearSel ranges today records),
         totalCreated (filterSort yearSel ranges today records),
         totalResolved (filterSort yearSel ranges today records)) := by
  unfold filterAndRenderData
  split
  · rename_i hlen
    have hnil : records = [] := List.length_eq_zero.mp hlen
    subst hnil
    simp [filterSort, stage2_eq_filter, stage1, sortRecs, totalCreated, totalResolved, cumulAux]
  · rfl

/-! ### Shared concrete inputs for scenario checks -/

/-- A monthly record of the spec's scenarios, in year 2025. -/
def mRec (mo : Nat) (c r : Int) : SRec :=
  { week_start := none, week_end := none, month_start := none
    month := some ⟨2025, mo, none⟩, created := some c, resolved := some r, label := "" }

/-- A "today" after all scenario records. -/
def today0 : DStr := ⟨2025, 12, some 31⟩

/-- The chart series `filterAndRenderData` renders. -/
def renderedSeries (yearSel : Option Nat) (ranges : List RangeTag) (today : DStr)
    (records : List SRec) : List CRec :=
  (filterAndRenderData yearSel ranges today records).1

/-- C1: on survivors with numeric created/resolved fields the cumulative
series is the running sum of (created - resolved) seeded at 0:
`cumulative[0] = created[0] - resolved[0]` and
`cumulative[i] - cumulative[i-1] = created[i] - resolved[i]`; and the
concrete scenario (months 1 and 2 of the selected year, ranges {Q1})
keeps both records, yields cumulative [-6, -5] and totals (6, 11). -/
theorem C1_cumulative_running_sum
    (yearSel : Option Nat) (ranges : List RangeTag) (today : DStr) (records : List SRec)
    (H : ∀ r ∈ filterSort yearSel ranges today records,
      r.created.isSome ∧ r.resolved.isSome) :
    (∀ c0 : CRec, (renderedSeries yearSel ranges today records).get? 0 = some c0 →
      c0.cumulative = jsSub c0.srec.created c0.srec.resolved)
    ∧ (∀ (i : Nat) (ci ci1 : CRec),
        (renderedSeries yearSel ranges today records).get? i = some ci →
        (renderedSeries yearSel ranges today records).get? (i + 1) = some ci1 →
        jsSub ci1.cumulative ci.cumulative = jsSub ci1.srec.created ci1.srec.resolved)
    ∧ filterAndRenderData (some 2025) [.Q1] today0 [mRec 1 4 10, mRec 2 2 1]
        = ([⟨mRec 1 4 10, some (-6)⟩, ⟨mRec 2 2 1, some (-5)⟩], 6, 11) := by
  have hout : renderedSeries yearSel ranges today records
      = cumulAux (some 0) (filterSort yearSel ranges today records) := by
    unfold renderedSeries
    rw [filterAndRenderData_eq]
  refine ⟨?_, ?_, by decide⟩
  · intro c0 hc0
    rw [hout, cumulAux_get? (some 0) (filterSort yearSel ranges today records) 0] at hc0
    rcases Option.map_eq_some'.mp hc0 with ⟨r, hr, hmk⟩
    have hstep := cumAt_succ (l := filterSort yearSel ranges today records) (some 0) hr
    subst hmk
    simp [hstep, cumAt, jsAdd_zero_left]
  · intro i ci ci1 hci hci1
    rw [hout, cumulAux_get? (some 0) (filterSort yearSel ranges today records) i] at hci
    rw [hout, cumulAux_get? (some 0) (filterSort yearSel ranges today records) (i + 1)] at hci1
    rcases Option.map_eq_some'.mp hci with ⟨r, hr, hmk⟩
    rcases Option.map_eq_some'.mp hci1 with ⟨r1, hr1, hmk1⟩
    have hstep := cumAt_succ (l := filterSort yearSel ranges today records) (some 0) hr1
    have hmem : r1 ∈ filterSort yearSel ranges today records := List.get?_mem hr1
    have hrec := H r1 hmem
    have hprev : (cumAt (some 0) (filterSort yearSel ranges today records) (i + 1)).isSome := by
      refine cumAt_isSome _ _ _ H ?_
      simp
    have hnet : (jsSub r1.created r1.resolved).isSome := by
      rcases Option.isSome_iff_exists.mp hrec.1 with ⟨a, ha⟩
      rcases Option.isSome_iff_exists.mp hrec.2 with ⟨b, hb⟩
      simp [jsSub, ha, hb]
    subst hmk
    subst hmk1
    simp only [hstep]
    exact jsSub_jsAdd_cancel hprev hnet

/-- Witness for C1 at the spec's concrete scenario. -/
theorem C1_witness :
    (∀ r ∈ filterSort (some 2025) [.Q1] today0 [mRec 1 4 10, mRec 2 2 1],
      r.created.isSome ∧ r.resolved.isSome)
    ∧ filterAndRenderData (some 2025) [.Q1] today0 [mRec 1 4 10, mRec 2 2 1]
        = ([⟨mRec 1 4 10, some (-6)⟩, ⟨mRec 2 2 1, some (-5)⟩], 6, 11) :=
  ⟨by decide,
   (C1_cumulative_running_sum (some 2025) [.Q1] today0 [mRec 1 4 10, mRec 2 2 1]
     (by decide)).2.2⟩

/-! ### C2: the quarter filter keeps exactly selected-quarter records -/

theorem selectedQuarters_ne_nil {ranges : List RangeTag} (hne : ranges ≠ [])
    (hA : RangeTag.Annual ∉ ranges) : selectedQuarters ranges ≠ [] := by
  cases ranges with
  | nil => exact absurd rfl hne
  | cons t ts =>
    have ht : t ≠ RangeTag.Annual := fun h => hA (h ▸ List.mem_cons_self t ts)
    cases t with
    | Annual => exact absurd rfl ht
    | Q1 => simp [selectedQuarters, quarterNum]
    | Q2 => simp [selectedQuarters, quarterNum]
    | Q3 => simp [selectedQuarters, quarterNum]
    | Q4 => simp [selectedQuarters, quarterNum]

theorem spec_bounds_of_quarterNum {t : RangeTag} {q : Nat} (h : quarterNum t = some q) :
    specQuarterMonths t = some (3 * q - 2, 3 * q) := by
  cases t <;> simp [quarterNum] at h <;> subst h <;> decide

theorem quarterNum_range {t : RangeTag} {q : Nat} (h : quarterNum t = some q) :
    1 ≤ q ∧ q ≤ 4 := by
  cases t <;> simp [quarterNum] at h <;> omega

theorem month_bounds_of_selected {ranges : List RangeTag} {em : Nat}
    (h : quarterOfMonth em ∈ selectedQuarters ranges) :
    ∃ t ∈ ranges, ∃ lo hi, specQuarterMonths t = some (lo, hi) ∧ lo ≤ em ∧ em ≤ hi := by
  rcases List.mem_filterMap.mp h with ⟨t, ht, hq⟩
  refine ⟨t, ht, 3 * quarterOfMonth em - 2, 3 * quarterOfMonth em,
    spec_bounds_of_quarterNum hq, ?_, ?_⟩
  · have := quarterNum_range hq
    unfold quarterOfMonth at *
    omega
  · have := quarterNum_range hq
    unfold quarterOfMonth at *
    omega

/-- C2: with a (truthy) selected year and a non-empty range selection not
containing Annual, every record kept by the pipeline has an effective
month (from the record's own date, falling back to the week end's month
when the record's year differs from the selected year) inside the month
range of some selected quarter, and its effective year is the selected
year. -/
theorem C2_quarter_filter_sound
    (y : Nat) (ranges : List RangeTag) (today : DStr) (records : List SRec) (r : SRec)
    (hy : y ≠ 0) (hne : ranges ≠ []) (hA : RangeTag.Annual ∉ ranges)
    (hmem : r ∈ filterSort (some y) ranges today records) :
    ∃ ey em, effectiveYM y r = some (ey, em) ∧ ey = y ∧
      ∃ t ∈ ranges, ∃ lo hi, specQuarterMonths t = some (lo, hi) ∧ lo ≤ em ∧ em ≤ hi := by
  obtain ⟨-, -, h2⟩ := mem_filterSort hmem
  unfold stage2Pred at h2
  rw [if_pos] at h2
  · rw [if_pos] at h2
    · unfold keepQuarter at h2
      cases hds : dateStrOf r with
      | none => rw [hds] at h2; simp at h2
      | some ds =>
        rw [hds] at h2
        simp only at h2
        by_cases hyy : ds.y = y
        · have hcond : (decide (y ≠ 0) && decide (ds.y ≠ y)) = false := by simp [hyy]
          rw [hcond] at h2
          simp only [Bool.false_eq_true, if_false] at h2
          have hq : quarterOfMonth ds.m ∈ selectedQuarters ranges := of_decide_eq_true h2
          refine ⟨ds.y, ds.m, ?_, hyy, month_bounds_of_selected hq⟩
          unfold effectiveYM
          rw [hds]
          simp [hyy]
        · have hcond : (decide (y ≠ 0) && decide (ds.y ≠ y)) = true := by simp [hyy, hy]
          rw [hcond] at h2
          simp only [if_true] at h2
          cases hwe : r.week_end with
          | none => rw [hwe] at h2; simp at h2
          | some we =>
            rw [hwe] at h2
            by_cases hwy : we.y = y
            · simp only [hwy, if_true, decide_eq_true_eq] at h2
              refine ⟨we.y, we.m, ?_, hwy, ?_⟩
              · unfold effectiveYM
                rw [hds]
                simp [hyy, hwe]
              · have hq : quarterOfMonth we.m ∈ selectedQuarters ranges := by
                  simpa [hwy] using h2
                exact month_bounds_of_selected hq
            · simp [hwy] at h2
    · have hsq := selectedQuarters_ne_nil hne hA
      simpa [List.length_pos] using hsq
  · simp [hA, List.length_pos, hne]

/-- Witness for C2 at a concrete kept record. -/
theorem C2_witness :
    (2025 : Nat) ≠ 0 ∧ ([RangeTag.Q1] ≠ [] ∧ RangeTag.Annual ∉ [RangeTag.Q1])
    ∧ mRec 1 4 10 ∈ filterSort (some 2025) [.Q1] today0 [mRec 1 4 10]
    ∧ (∃ ey em, effectiveYM 2025 (mRec 1 4 10) = some (ey, em) ∧ ey = 2025 ∧
        ∃ t ∈ [RangeTag.Q1], ∃ lo hi, specQuarterMonths t = some (lo, hi)
          ∧ lo ≤ em ∧ em ≤ hi) :=
  ⟨by decide, ⟨by decide, by decide⟩, by decide,
   C2_quarter_filter_sound 2025 [.Q1] today0 [mRec 1 4 10] (mRec 1 4 10)
     (by decide) (by decide) (by decide) (by decide)⟩

/-! ### C4: future-dated records are never rendered -/

theorem keepFuture_dateLe {today : DStr} {r : SRec} {dt : DStr}
    (hdt : itemDateOf r = some dt) (h : keepFuture today r = true) :
    dateLe dt today = true := by
  unfold keepFuture at h
  cases hds : dateStrOf r with
  | none => rw [hds] at h; simp at h
  | some ds =>
    rw [hds] at h
    simp only [hdt] at h
    exact h

theorem keepYearFuture_dateLe {y : Nat} {today : DStr} {r : SRec} {dt : DStr}
    (hdt : itemDateOf r = some dt) (h : keepYearFuture y today r = true) :
    dateLe dt today = true := by
  unfold keepYearFuture at h
  cases hds : dateStrOf r with
  | none => rw [hds] at h; simp at h
  | some ds =>
    rw [hds] at h
    simp only [hdt] at h
    split at h
    · exact h
    · simp at h

/-- C4: a record whose effective date (periodStart, or the derived month
start) is strictly after today is excluded from the filtered output,
whatever the range selection and whether or not a year is selected. -/
theorem C4_future_records_excluded
    (yearSel : Option Nat) (ranges : List RangeTag) (today : DStr) (records : List SRec)
    (r : SRec) (dt : DStr) (hdt : itemDateOf r = some dt) (hfut : dateLt today dt = true) :
    r ∉ filterSort yearSel ranges today records := by
  intro hmem
  obtain ⟨-, h1, -⟩ := mem_filterSort hmem
  have hle : dateLe dt today = true := by
    cases yearSel with
    | none =>
      simp only [stage1Pred] at h1
      exact keepFuture_dateLe hdt h1
    | some yv =>
      simp only [stage1Pred] at h1
      split at h1
      · exact keepYearFuture_dateLe hdt h1
      · exact keepFuture_dateLe hdt h1
  have hfalse := dateLe_eq_false_of_dateLt hfut
  rw [hle] at hfalse
  simp at hfalse

/-- A record dated after `today0`. -/
def futRec : SRec :=
  { week_start := none, week_end := none, month_start := none
    month := some ⟨2030, 1, none⟩, created := some 1, resolved := some 1, label := "" }

/-- Witness for C4: a 2030 record is excluded when today is in 2025. -/
theorem C4_witness :
    itemDateOf futRec = some ⟨2030, 1, some 1⟩
    ∧ dateLt today0 ⟨2030, 1, some 1⟩ = true
    ∧ futRec ∉ filterSort (some 2030) [.Q1] today0 [futRec] :=
  ⟨by decide, by decide,
   C4_future_records_excluded (some 2030) [.Q1] today0 [futRec] futRec ⟨2030, 1, some 1⟩
     (by decide) (by decide)⟩

/-- C9: the range-filter-and-sort pipeline is idempotent — applying it to
its own output with the same year/ranges/today yields the same sequence. -/
theorem C9_filter_sort_idempotent (yearSel : Option Nat) (ranges : List RangeTag)
    (today : DStr) (records : List SRec) :
    filterSort yearSel ranges today (filterSort yearSel ranges today records)
      = filterSort yearSel ranges today records := by
  have hmem : ∀ x ∈ filterSort yearSel ranges today records,
      stage1Pred yearSel today x = true ∧ stage2Pred yearSel ranges x = true :=
    fun x hx => (mem_filterSort hx).2
  have h1 : stage1 yearSel today (filterSort yearSel ranges today records)
      = filterSort yearSel ranges today records := by
    unfold stage1
    exact List.filter_eq_self.mpr (fun a ha => (hmem a ha).1)
  have h2 : stage2 yearSel ranges (filterSort yearSel ranges today records)
      = filterSort yearSel ranges today records := by
    rw [stage2_eq_filter]
    exact List.filter_eq_self.mpr (fun a ha => (hmem a ha).2)
  have h3 : sortRecs (filterSort yearSel ranges today records)
      = filterSort yearSel ranges today records := by
    apply sortRecs_eq_of_sorted
    unfold filterSort
    exact sortRecs_sorted _
  conv_lhs => unfold filterSort
  rw [show sortRecs (stage2 yearSel ranges (stage1 yearSel today records))
      = filterSort yearSel ranges today records from rfl, h1, h2, h3]

/-! ### C3: filename sanitization -/

/-- Counterexample to C3: the code replaces each disallowed character with
an underscore instead of stripping it, so on the spec's own example the
code's output differs from the claimed stripped form. -/
theorem C3_counterexample :
    sanitizeCustomer "STL - Airtel Fixedline" = "STL_-_Airtel_Fixedline"
    ∧ specSanitize "STL - Airtel Fixedline" = "STL-AirtelFixedline"
    ∧ sanitizeCustomer "STL - Airtel Fixedline"
        ≠ specSanitize "STL - Airtel Fixedline" :=
  ⟨by decide, by decide, by decide⟩

theorem isAllowedChar_replaceChar (c : Char) : isAllowedChar (replaceChar c) = true := by
  unfold replaceChar
  split
  · assumption
  · decide

/-- C3 (amended): the sanitizer maps the three special tokens to
themselves and otherwise replaces every character outside [A-Za-z0-9_-]
with an underscore before truncating to 50 characters; every output has
only allowed characters and length at most 50, and the filename is
period-year-customer.json. -/
theorem C3_sanitizer_amended :
    (sanitizeCustomer "all" = "all" ∧ sanitizeCustomer "one-albania" = "one-albania"
      ∧ sanitizeCustomer "rest-of-world" = "rest-of-world")
    ∧ (∀ s, (sanitizeCustomer s).length ≤ 50)
    ∧ (∀ s, ∀ c ∈ (sanitizeCustomer s).data, isAllowedChar c = true)
    ∧ (∀ p y c, getDataFilename p y c
        = p ++ "-" ++ jsNumToString y ++ "-" ++ sanitizeCustomer c ++ ".json")
    ∧ (∀ s, s ≠ "all" → s ≠ "one-albania" → s ≠ "rest-of-world" →
        sanitizeCustomer s = String.mk ((s.data.map replaceChar).take 50)) := by
  refine ⟨⟨by decide, by decide, by decide⟩, ?_, ?_, fun p y c => rfl, ?_⟩
  · intro s
    unfold sanitizeCustomer
    split_ifs
    · decide
    · decide
    · decide
    · show ((s.data.map replaceChar).take 50).length ≤ 50
      have h := List.length_take 50 (s.data.map replaceChar)
      omega
  · intro s
    unfold sanitizeCustomer
    split_ifs
    · decide
    · decide
    · decide
    · intro c hc
      have hc2 : c ∈ s.data.map replaceChar := List.take_subset 50 _ hc
      rcases List.mem_map.mp hc2 with ⟨a, -, ha⟩
      rw [← ha]
      exact isAllowedChar_replaceChar a
  · intro s h1 h2 h3
    unfold sanitizeCustomer
    simp [h1, h2, h3]

/-- Witness for C3's amended statement at a non-special customer. -/
theorem C3_witness :
    sanitizeCustomer "x y" = String.mk (("x y".data.map replaceChar).take 50)
    ∧ (sanitizeCustomer "x y").length ≤ 50 :=
  ⟨C3_sanitizer_amended.2.2.2.2 "x y" (by decide) (by decide) (by decide),
   C3_sanitizer_amended.2.1 "x y"⟩

/-! ### C5: initial filter-state resolution -/

/-- Counterexample to C5: with no query string and no stored state the
hard-coded defaults are period "monthly", ranges [Annual], customer
"all" (year = latest), not the claimed "weekly"/{Q4}/"one-albania". -/
theorem C5_counterexample :
    initFilters ⟨false, none, none, none, none⟩ none [2024, 2025]
      = { period := "monthly", year := some 2025
          ranges := [RangeTag.Annual], customer := "all" }
    ∧ "monthly" ≠ "weekly"
    ∧ [RangeTag.Annual] ≠ [RangeTag.Q4]
    ∧ "all" ≠ "one-albania" :=
  ⟨by decide, by decide, by decide, by decide⟩

/-- C5 (amended): resolution order is query string (whole set, ignoring
storage) over stored state over hard-coded defaults, where the defaults
are period "monthly", ranges [Annual], customer "all", and the year falls
back to the latest metadata year. -/
theorem C5_resolution_amended :
    (∀ (q : Query) (s1 s2 : Option StoredFilters) (years : List Nat),
      q.present = true → initFilters q s1 years = initFilters q s2 years)
    ∧ (∀ (q : Query) (p : StoredFilters) (years : List Nat), q.present = false →
        (initFilters q (some p) years).period = p.period.getD "monthly"
        ∧ (initFilters q (some p) years).ranges
            = (match p.ranges with
               | some l => if l.length > 0 then l else [RangeTag.Annual]
               | none => [RangeTag.Annual])
        ∧ (initFilters q (some p) years).customer = p.customer.getD "all")
    ∧ (∀ (q : Query) (years : List Nat), q.present = false →
        initFilters q none years
          = { period := "monthly", year := lastYear years
              ranges := [RangeTag.Annual], customer := "all" }) := by
  refine ⟨?_, ?_, ?_⟩
  · intro q s1 s2 years hp
    unfold initFilters getUrlParams
    rw [hp]
    simp
  · intro q p years hp
    unfold initFilters getUrlParams
    rw [hp]
    simp [loadFiltersFromStorage]
  · intro q years hp
    unfold initFilters getUrlParams
    rw [hp]
    simp [loadFiltersFromStorage]

/-- Witness for C5's amended statement. -/
theorem C5_witness :
    (⟨false, none, none, none, none⟩ : Query).present = false
    ∧ initFilters ⟨false, none, none, none, none⟩ none [2024, 2025]
        = { period := "monthly", year := some 2025
            ranges := [RangeTag.Annual], customer := "all" } :=
  ⟨rfl, by
    have h := C5_resolution_amended.2.2 ⟨false, none, none, none, none⟩ [2024, 2025] rfl
    rw [h]
    decide⟩

/-! ### C6: missing numeric fields -/

/-- A record whose created count is absent. -/
def recN : SRec :=
  { week_start := none, week_end := none, month_start := none
    month := some ⟨2025, 1, none⟩, created := none, resolved := some 1, label := "" }

/-- Counterexample to C6: a record missing `created` produces a NaN
(non-numeric) cumulative value, not a cumulative treating it as 0;
only the totals default the missing field to 0. -/
theorem C6_counterexample :
    (renderedSeries (some 2025) [.Q1] today0 [recN]).map (fun c => c.cumulative) = [none]
    ∧ (filterAndRenderData (some 2025) [.Q1] today0 [recN]).2 = (0, 1)
    ∧ (none : Option Int) ≠ some (0 - 1) :=
  ⟨by decide, by decide, by decide⟩

theorem jsSub_none_right (x : Option Int) : jsSub x none = none := by cases x <;> rfl

theorem jsAdd_none_right (x : Option Int) : jsAdd x none = none := by cases x <;> rfl

/-- C6 (amended): a missing created/resolved field is NOT treated as 0 in
`netChange` — the record's cumulative value becomes NaN (`none`); the
missing field defaults to 0 only in the displayed totals. -/
theorem C6_missing_fields_amended :
    (∀ (cum : Option Int) (r : SRec) (rest : List SRec),
      r.created = none ∨ r.resolved = none →
      (cumulAux cum (r :: rest)).head?.map (fun c => c.cumulative) = some none)
    ∧ (∀ l : List SRec, totalCreated l = (l.map (fun r => r.created.getD 0)).sum)
    ∧ (∀ l : List SRec, totalResolved l = (l.map (fun r => r.resolved.getD 0)).sum) := by
  refine ⟨?_, ?_, ?_⟩
  · intro cum r rest h
    rcases h with h | h
    · simp [cumulAux, h, jsSub, jsAdd_none_right]
    · simp [cumulAux, h, jsSub_none_right, jsAdd_none_right]
  · intro l
    induction l with
    | nil => simp [totalCreated]
    | cons r rs ih => simp [totalCreated, ih]
  · intro l
    induction l with
    | nil => simp [totalResolved]
    | cons r rs ih => simp [totalResolved, ih]

/-- Witness for C6's amended statement. -/
theorem C6_witness :
    (recN.created = none ∨ recN.resolved = none)
    ∧ (cumulAux (some 0) [recN]).head?.map (fun c => c.cumulative) = some none :=
  ⟨Or.inl rfl, C6_missing_fields_amended.1 (some 0) recN [] (Or.inl rfl)⟩

/-! ### C7: the ranges invariant -/

/-- Counterexample to C7: URL initialization does not sanitize `ranges`,
so a query string with ranges=Annual,Q1 yields a state where Annual and a
quarter tag coexist. -/
theorem C7_counterexample :
    RangeTag.Annual
        ∈ (initFilters ⟨true, none, none, some [.Annual, .Q1], none⟩ none [2025]).ranges
    ∧ RangeTag.Q1
        ∈ (initFilters ⟨true, none, none, some [.Annual, .Q1], none⟩ none [2025]).ranges :=
  ⟨by decide, by decide⟩

/-- C7 (amended): `ranges` is never empty in any state produced by
initialization (query split lists are non-empty) or by a range-button
click, and button clicks are radio-style — the new selection is exactly
the clicked tag, so Annual and quarters never coexist after a click; URL
initialization, however, does not enforce the mutual exclusion. -/
theorem C7_ranges_amended :
    (∀ (q : Query) (saved : Option StoredFilters) (years : List Nat),
      q.ranges ≠ some [] → (initFilters q saved years).ranges ≠ [])
    ∧ (∀ (st : Filters) (t : RangeTag), (rangeButtonClick st t).ranges = [t])
    ∧ (∀ (st : Filters) (t a b : RangeTag),
        a ∈ (rangeButtonClick st t).ranges → b ∈ (rangeButtonClick st t).ranges → a = b) := by
  refine ⟨?_, fun st t => rfl, ?_⟩
  · intro q saved years hq
    unfold initFilters getUrlParams
    cases hp : q.present with
    | true =>
      cases hqr : q.ranges with
      | none => simp
      | some l =>
        have hl : l ≠ [] := fun h => hq (by rw [hqr, h])
        simp [hl]
    | false =>
      cases saved with
      | none => simp [loadFiltersFromStorage]
      | some p =>
        cases hr : p.ranges with
        | none => simp [loadFiltersFromStorage, hr]
        | some l =>
          by_cases hl : l.length > 0
          · simp [loadFiltersFromStorage, hr, hl]
            exact List.ne_nil_of_length_pos hl
          · simp [loadFiltersFromStorage, hr, hl]
  · intro st t a b ha hb
    have ha2 : a = t := List.mem_singleton.mp ha
    have hb2 : b = t := List.mem_singleton.mp hb
    rw [ha2, hb2]

/-- Witness for C7's amended statement. -/
theorem C7_witness :
    ((⟨true, none, none, some [RangeTag.Q4], none⟩ : Query).ranges ≠ some [])
    ∧ (initFilters ⟨true, none, none, some [RangeTag.Q4], none⟩ none []).ranges ≠ [] :=
  ⟨by decide,
   C7_ranges_amended.1 ⟨true, none, none, some [RangeTag.Q4], none⟩ none [] (by decide)⟩

/-! ### C8: snapshot load failure handling -/

/-- Counterexample to C8: a successful response whose parsed body lacks
the `data` field is handled by clearing the display, not by the visible
error state. -/
theorem C8_counterexample :
    loadData ⟨true, some ⟨none⟩⟩ = LoadOutcome.clearedEmpty
    ∧ LoadOutcome.clearedEmpty ≠ LoadOutcome.errorShown :=
  ⟨rfl, by decide⟩

/-- C8 (amended): a non-ok HTTP status or an unparsable body surfaces the
error state; a parsed body with a missing or empty `data` field clears
the display instead; otherwise the records are rendered. -/
theorem C8_load_outcomes_amended :
    (∀ resp : FetchResponse, resp.ok = false → loadData resp = LoadOutcome.errorShown)
    ∧ (∀ resp : FetchResponse, resp.ok = true → resp.body = none →
        loadData resp = LoadOutcome.errorShown)
    ∧ (∀ (resp : FetchResponse) (fd : FileData), resp.ok = true → resp.body = some fd →
        fd.data = none → loadData resp = LoadOutcome.clearedEmpty)
    ∧ (∀ (resp : FetchResponse) (fd : FileData), resp.ok = true → resp.body = some fd →
        fd.data = some [] → loadData resp = LoadOutcome.clearedEmpty)
    ∧ (∀ (resp : FetchResponse) (fd : FileData) (l : List SRec), resp.ok = true →
        resp.body = some fd → fd.data = some l → l ≠ [] →
        loadData resp = LoadOutcome.rendered l) := by
  refine ⟨?_, ?_, ?_, ?_, ?_⟩
  · intro resp h
    unfold loadData
    rw [h]
    rfl
  · intro resp h hb
    unfold loadData
    rw [h, hb]
    rfl
  · intro resp fd h hb hd
    unfold loadData
    rw [h, hb]
    simp [hd]
  · intro resp fd h hb hd
    unfold loadData
    rw [h, hb]
    simp [hd]
  · intro resp fd l h hb hd hl
    unfold loadData
    rw [h, hb]
    simp [hd, hl]

/-- Witness for C8's amended statement. -/
theorem C8_witness :
    (FetchResponse.mk false none).ok = false
    ∧ loadData ⟨false, none⟩ = LoadOutcome.errorShown :=
  ⟨rfl, C8_load_outcomes_amended.1 ⟨false, none⟩ rfl⟩

/-! ### C10: customer-distribution range key -/

theorem sortTags_perm (l : List RangeTag) : List.Perm (sortTags l) l :=
  List.perm_insertionSort tagLeP l

theorem sortTags_sorted (l : List RangeTag) : (sortTags l).Sorted tagLeP :=
  List.sorted_insertionSort tagLeP l

theorem sortTags_eq_of_perm {l1 l2 : List RangeTag} (h : l1.Perm l2) :
    sortTags l1 = sortTags l2 :=
  List.eq_of_perm_of_sorted
    ((sortTags_perm l1).trans (h.trans (sortTags_perm l2).symm))
    (sortTags_sorted l1) (sortTags_sorted l2)

theorem rangeTag_length_eq_counts (l : List RangeTag) :
    l.length = l.count .Q1 + l.count .Q2 + l.count .Q3 + l.count .Q4 + l.count .Annual := by
  induction l with
  | nil => simp
  | cons t ts ih =>
    cases t <;> simp [List.count_cons, ih] <;> omega

theorem all_four_perm {l : List RangeTag} (hlen : l.length = 4)
    (h1 : RangeTag.Q1 ∈ l) (h2 : RangeTag.Q2 ∈ l) (h3 : RangeTag.Q3 ∈ l)
    (h4 : RangeTag.Q4 ∈ l) : l.Perm [.Q1, .Q2, .Q3, .Q4] := by
  have hc := rangeTag_length_eq_counts l
  have hp1 : l.count RangeTag.Q1 ≠ 0 := fun h0 => (List.count_eq_zero.mp h0) h1
  have hp2 : l.count RangeTag.Q2 ≠ 0 := fun h0 => (List.count_eq_zero.mp h0) h2
  have hp3 : l.count RangeTag.Q3 ≠ 0 := fun h0 => (List.count_eq_zero.mp h0) h3
  have hp4 : l.count RangeTag.Q4 ≠ 0 := fun h0 => (List.count_eq_zero.mp h0) h4
  rw [List.perm_iff_count]
  intro a
  cases a with
  | Q1 =>
    rw [show List.count RangeTag.Q1 [RangeTag.Q1, RangeTag.Q2, RangeTag.Q3, RangeTag.Q4] = 1
      from by decide]
    omega
  | Q2 =>
    rw [show List.count RangeTag.Q2 [RangeTag.Q1, RangeTag.Q2, RangeTag.Q3, RangeTag.Q4] = 1
      from by decide]
    omega
  | Q3 =>
    rw [show List.count RangeTag.Q3 [RangeTag.Q1, RangeTag.Q2, RangeTag.Q3, RangeTag.Q4] = 1
      from by decide]
    omega
  | Q4 =>
    rw [show List.count RangeTag.Q4 [RangeTag.Q1, RangeTag.Q2, RangeTag.Q3, RangeTag.Q4] = 1
      from by decide]
    omega
  | Annual =>
    rw [show List.count RangeTag.Annual [RangeTag.Q1, RangeTag.Q2, RangeTag.Q3, RangeTag.Q4] = 0
      from by decide]
    omega

theorem rangeKeyCore_cons2 (a b : RangeTag) (bs : List RangeTag)
    (hA : RangeTag.Annual ∉ a :: b :: bs) :
    rangeKeyCore (a :: b :: bs)
      = (if (sortTags (a :: b :: bs)).length = 4
            ∧ RangeTag.Q1 ∈ sortTags (a :: b :: bs) ∧ RangeTag.Q2 ∈ sortTags (a :: b :: bs)
            ∧ RangeTag.Q3 ∈ sortTags (a :: b :: bs) ∧ RangeTag.Q4 ∈ sortTags (a :: b :: bs)
         then "Annual" else joinPlus (sortTags (a :: b :: bs))) := by
  unfold rangeKeyCore
  rw [if_neg hA]

theorem rangeKeyCore_perm {l1 l2 : List RangeTag} (h : l1.Perm l2) :
    rangeKeyCore l1 = rangeKeyCore l2 := by
  by_cases hA : RangeTag.Annual ∈ l1
  · have hA2 : RangeTag.Annual ∈ l2 := h.mem_iff.mp hA
    unfold rangeKeyCore
    rw [if_pos hA, if_pos hA2]
  · have hA2 : RangeTag.Annual ∉ l2 := fun hh => hA (h.mem_iff.mpr hh)
    cases l1 with
    | nil =>
      have h2 : l2 = [] := List.Perm.eq_nil h.symm
      subst h2
      rfl
    | cons a as =>
      cases as with
      | nil =>
        have h2 : l2 = [a] := List.perm_singleton.mp h.symm
        subst h2
        rfl
      | cons b bs =>
        cases l2 with
        | nil => exact absurd (List.Perm.eq_nil h) (by simp)
        | cons c cs =>
          cases cs with
          | nil =>
            have h2 := List.perm_singleton.mp h
            simp at h2
          | cons d ds =>
            rw [rangeKeyCore_cons2 a b bs hA, rangeKeyCore_cons2 c d ds hA2,
              sortTags_eq_of_perm h]

/-- C10: the customer-distribution range key is canonical — invariant
under permutation of the selected tags, Annual whenever Annual is
selected or all four quarters are selected in any order, the tag itself
for a single quarter, and the sorted plus-joined tags otherwise; hence
the requested filename is permutation-invariant too. -/
theorem C10_range_key_canonical :
    (∀ l1 l2 : List RangeTag, l1.Perm l2 → rangeKeyCore l1 = rangeKeyCore l2)
    ∧ (∀ l : List RangeTag, l.Perm [.Q1, .Q2, .Q3, .Q4] → rangeKeyCore l = "Annual")
    ∧ (∀ l : List RangeTag, RangeTag.Annual ∈ l → rangeKeyCore l = "Annual")
    ∧ (∀ t : RangeTag, rangeKeyCore [t] = tagStr t)
    ∧ (∀ (y : Option Nat) (l1 l2 : List RangeTag), l1.Perm l2 →
        aggregateFilename y l1 = aggregateFilename y l2)
    ∧ (∀ l : List RangeTag, RangeTag.Annual ∉ l → 2 ≤ l.length →
        ¬ l.Perm [.Q1, .Q2, .Q3, .Q4] → rangeKeyCore l = joinPlus (sortTags l)) := by
  refine ⟨fun l1 l2 h => rangeKeyCore_perm h,
    fun l h => (rangeKeyCore_perm h).trans (by decide),
    ?_, ?_, ?_, ?_⟩
  · intro l h
    unfold rangeKeyCore
    rw [if_pos h]
  · intro t
    cases t <;> decide
  · intro y l1 l2 h
    unfold aggregateFilename
    have hkey := rangeKeyCore_perm h
    have hemp : l1.isEmpty = l2.isEmpty := by
      cases l1 with
      | nil =>
        have h2 : l2 = [] := List.Perm.eq_nil h.symm
        subst h2
        rfl
      | cons a as =>
        cases l2 with
        | nil => exact absurd (List.Perm.eq_nil h) (by simp)
        | cons c cs => rfl
    rw [hkey, hemp]
  · intro l hA hlen2 hnp
    cases l with
    | nil => simp at hlen2
    | cons a as =>
      cases as with
      | nil => simp at hlen2
      | cons b bs =>
        rw [rangeKeyCore_cons2 a b bs hA]
        rw [if_neg]
        intro hcond
        obtain ⟨hl4, hm1, hm2, hm3, hm4⟩ := hcond
        have hperm := sortTags_perm (a :: b :: bs)
        have hlen : (a :: b :: bs).length = 4 := by
          rw [← hperm.length_eq]
          exact hl4
        exact hnp (all_four_perm hlen (hperm.mem_iff.mp hm1) (hperm.mem_iff.mp hm2)
          (hperm.mem_iff.mp hm3) (hperm.mem_iff.mp hm4))

/-- Witness for C10 at a shuffled all-four selection. -/
theorem C10_witness :
    rangeKeyCore [RangeTag.Q3, RangeTag.Q1, RangeTag.Q4, RangeTag.Q2] = "Annual"
    ∧ aggregateFilename (some 2025) [RangeTag.Q3, RangeTag.Q1]
        = aggregateFilename (some 2025) [RangeTag.Q1, RangeTag.Q3] :=
  ⟨C10_range_key_canonical.2.1 _ (by decide),
   C10_range_key_canonical.2.2.2.2.1 (some 2025) _ _ (by decide)⟩
